import Mathlib

/-!
Verification development for the GIRT gateway (girt-core, girt-pipeline,
girt-runtime crates).  The Rust sources are shallowly embedded: pure
functions become Lean functions, stateful code (decision cache, runtime
indexes) is passed explicitly as state, fallible calls return `Except`,
and external collaborators (the regex engine, the LLM evaluators, the
HITL responder, the wasm toolchain) are parameters of the model.
-/

namespace Girt

/- ### JSON values (model of serde_json::Value)

`serde_json::Value` numbers may be floats; only integer numbers occur in
the properties verified here, so numbers are modelled as `Int`.  Objects
are modelled as ordered field lists (serde_json's map is a `BTreeMap`,
i.e. its serialization order is the canonical sorted order; the model
serializes fields in list order). -/
inductive Json where
  | null : Json
  | bool (b : Bool) : Json
  | num (n : Int) : Json
  | str (s : String) : Json
  | arr (elems : List Json) : Json
  | obj (fields : List (String × Json)) : Json

/-- Lowercase hexadecimal digit characters (serde_json and the hex crate
both emit lowercase hex). -/
def hexDigits : List Char := "0123456789abcdef".data

def hexDigit (n : Nat) : Char := hexDigits.getD n '0'

/-- JSON string escaping as performed by serde_json: `"` and `\` get a
backslash, the five short control escapes are used where they exist, any
other control character below 0x20 becomes `\u00xx`, and everything else
(including non-ASCII) is emitted verbatim. -/
def escChar (c : Char) : List Char :=
  if c = '"' then ['\\', '"']
  else if c = '\\' then ['\\', '\\']
  else if c = '\x08' then ['\\', 'b']
  else if c = '\t' then ['\\', 't']
  else if c = '\n' then ['\\', 'n']
  else if c = '\x0c' then ['\\', 'f']
  else if c = '\r' then ['\\', 'r']
  else if c.toNat < 32 then ['\\', 'u', '0', '0', hexDigit (c.toNat / 16), hexDigit (c.toNat % 16)]
  else [c]

def escapeChars : List Char → List Char
  | [] => []
  | c :: cs => escChar c ++ escapeChars cs

/-- A JSON string literal: quote, escaped characters, quote. -/
def escapeJsonString (s : String) : String :=
  String.mk ('"' :: escapeChars s.data ++ ['"'])

mutual

/-- Compact JSON serialization of a value (serde_json::to_string). -/
def Json.render : Json → String
  | .null => "null"
  | .bool true => "true"
  | .bool false => "false"
  | .num n => toString n
  | .str s => escapeJsonString s
  | .arr elems => "[" ++ renderElems elems ++ "]"
  | .obj fields => "\x7b" ++ renderFields fields ++ "\x7d"

def renderElems : List Json → String
  | [] => ""
  | [x] => x.render
  | x :: y :: rest => x.render ++ "," ++ renderElems (y :: rest)

def renderFields : List (String × Json) → String
  | [] => ""
  | [(k, v)] => escapeJsonString k ++ ":" ++ v.render
  | (k, v) :: g :: rest => escapeJsonString k ++ ":" ++ v.render ++ "," ++ renderFields (g :: rest)

end

/- ### UTF-8 and SHA-256

`CapabilitySpec::spec_hash` feeds the canonical JSON bytes to the sha2
crate.  SHA-256 is implemented here over byte lists, with 32-bit words
represented as `Nat` reduced mod `2^32`. -/

def utf8Char (c : Char) : List Nat :=
  let n := c.toNat
  if n < 128 then [n]
  else if n < 2048 then [192 + n / 64, 128 + n % 64]
  else if n < 65536 then [224 + n / 4096, 128 + n / 64 % 64, 128 + n % 64]
  else [240 + n / 262144, 128 + n / 4096 % 64, 128 + n / 64 % 64, 128 + n % 64]

def utf8Encode : List Char → List Nat
  | [] => []
  | c :: cs => utf8Char c ++ utf8Encode cs

def utf8Bytes (s : String) : List Nat := utf8Encode s.data

/-- 2^32, the word modulus. -/
def w32 : Nat := 4294967296

def add32 (a b : Nat) : Nat := (a + b) % w32

def rotr32 (x n : Nat) : Nat := (x / 2 ^ n + x % 2 ^ n * 2 ^ (32 - n)) % w32

def shr32 (x n : Nat) : Nat := x / 2 ^ n

def bigSigma0 (x : Nat) : Nat := rotr32 x 2 ^^^ rotr32 x 13 ^^^ rotr32 x 22

def bigSigma1 (x : Nat) : Nat := rotr32 x 6 ^^^ rotr32 x 11 ^^^ rotr32 x 25

def smallSigma0 (x : Nat) : Nat := rotr32 x 7 ^^^ rotr32 x 18 ^^^ shr32 x 3

def smallSigma1 (x : Nat) : Nat := rotr32 x 17 ^^^ rotr32 x 19 ^^^ shr32 x 10

def chFn (e f g : Nat) : Nat := (e &&& f) ^^^ ((e ^^^ 4294967295) &&& g)

def majFn (a b c : Nat) : Nat := (a &&& b) ^^^ (a &&& c) ^^^ (b &&& c)

def sha256K : List Nat :=
  [1116352408, 1899447441, 3049323471, 3921009573,
   961987163, 1508970993, 2453635748, 2870763221,
   3624381080, 310598401, 607225278, 1426881987,
   1925078388, 2162078206, 2614888103, 3248222580,
   3835390401, 4022224774, 264347078, 604807628,
   770255983, 1249150122, 1555081692, 1996064986,
   2554220882, 2821834349, 2952996808, 3210313671,
   3336571891, 3584528711, 113926993, 338241895,
   666307205, 773529912, 1294757372, 1396182291,
   1695183700, 1986661051, 2177026350, 2456956037,
   2730485921, 2820302411, 3259730800, 3345764771,
   3516065817, 3600352804, 4094571909, 275423344,
   430227734, 506948616, 659060556, 883997877,
   958139571, 1322822218, 1537002063, 1747873779,
   1955562222, 2024104815, 2227730452, 2361852424,
   2428436474, 2756734187, 3204031479, 3329325298]

/-- The eight SHA-256 working registers / hash words. -/
structure Hash8 where
  h0 : Nat
  h1 : Nat
  h2 : Nat
  h3 : Nat
  h4 : Nat
  h5 : Nat
  h6 : Nat
  h7 : Nat

def sha256Init : Hash8 :=
  ⟨1779033703, 3144134277, 1013904242, 2773480762,
   1359893119, 2600822924, 528734635, 1541459225⟩

/-- Big-endian 32-bit words from bytes. -/
def bytesToWords : List Nat → List Nat
  | b0 :: b1 :: b2 :: b3 :: rest => (((b0 * 256 + b1) * 256 + b2) * 256 + b3) :: bytesToWords rest
  | _ => []

/-- Extend 16 message words to the 64-entry schedule. -/
def extendWords (ws : List Nat) : List Nat :=
  (List.range 48).foldl
    (fun acc _ =>
      let n := acc.length
      acc ++ [add32 (add32 (smallSigma1 (acc.getD (n - 2) 0)) (acc.getD (n - 7) 0))
                (add32 (smallSigma0 (acc.getD (n - 15) 0)) (acc.getD (n - 16) 0))])
    ws

/-- One compression round. -/
def compressStep (st : Hash8) (wk : Nat × Nat) : Hash8 :=
  let t1 := add32 st.h7 (add32 (bigSigma1 st.h4) (add32 (chFn st.h4 st.h5 st.h6) (add32 wk.2 wk.1)))
  let t2 := add32 (bigSigma0 st.h0) (majFn st.h0 st.h1 st.h2)
  ⟨add32 t1 t2, st.h0, st.h1, st.h2, add32 st.h3 t1, st.h4, st.h5, st.h6⟩

def processBlock (h : Hash8) (block : List Nat) : Hash8 :=
  let st := ((extendWords (bytesToWords block)).zip sha256K).foldl compressStep h
  ⟨add32 h.h0 st.h0, add32 h.h1 st.h1, add32 h.h2 st.h2, add32 h.h3 st.h3,
   add32 h.h4 st.h4, add32 h.h5 st.h5, add32 h.h6 st.h6, add32 h.h7 st.h7⟩

/-- Big-endian 8-byte encoding of the bit length. -/
def lenBytes8 (n : Nat) : List Nat :=
  (List.range 8).map (fun i => n / 2 ^ (8 * (7 - i)) % 256)

/-- SHA-256 padding: 0x80, zeros, 64-bit big-endian bit length. -/
def sha256Pad (msg : List Nat) : List Nat :=
  msg ++ 0x80 :: List.replicate ((64 - (msg.length + 9) % 64) % 64) 0 ++ lenBytes8 (8 * msg.length)

def chunks64 : List Nat → List (List Nat)
  | [] => []
  | b :: bs => (b :: bs).take 64 :: chunks64 ((b :: bs).drop 64)
termination_by l => l.length
decreasing_by simp; omega

def sha256Words (msg : List Nat) : Hash8 :=
  (chunks64 (sha256Pad msg)).foldl processBlock sha256Init

/-- The 256-bit digest as a natural number (big-endian word order). -/
def sha256Nat (msg : List Nat) : Nat :=
  let h := sha256Words msg
  ((((((h.h0 * w32 + h.h1) * w32 + h.h2) * w32 + h.h3) * w32 + h.h4) * w32 + h.h5) * w32 + h.h6)
      * w32 + h.h7

/-- Fixed-width 64-digit lowercase hex rendering of a 256-bit number
(hex::encode of the 32 digest bytes). -/
def natToHex64 (n : Nat) : String :=
  String.mk ((List.range 64).map (fun i => hexDigit (n / 16 ^ (63 - i) % 16)))

def sha256Hex (msg : List Nat) : String := natToHex64 (sha256Nat msg)

/- ### Capability specs and execution requests (girt-core/src/spec.rs) -/

/-- Security constraints for a capability. -/
structure CapabilityConstraints where
  network : List String
  storage : List String
  secrets : List String
deriving DecidableEq

/-- A capability spec describing what tool is being requested. -/
structure CapabilitySpec where
  name : String
  description : String
  inputs : Json
  outputs : Json
  constraints : CapabilityConstraints

/-- An execution request describing a tool invocation being evaluated. -/
structure ExecutionRequest where
  tool_name : String
  arguments : Json

def renderStringList (xs : List String) : String :=
  "[" ++ String.intercalate "," (xs.map escapeJsonString) ++ "]"

/-- serde_json serialization of `CapabilityConstraints` (fields in
declaration order: network, storage, secrets). -/
def CapabilityConstraints.render (c : CapabilityConstraints) : String :=
  "\x7b\"network\":" ++ renderStringList c.network ++
    ",\"storage\":" ++ renderStringList c.storage ++
    ",\"secrets\":" ++ renderStringList c.secrets ++ "\x7d"

/-- The canonical serialization of a spec: serde_json::to_string with
struct fields in declaration order. -/
def CapabilitySpec.canonicalJson (s : CapabilitySpec) : String :=
  "\x7b\"name\":" ++ escapeJsonString s.name ++
    ",\"description\":" ++ escapeJsonString s.description ++
    ",\"inputs\":" ++ s.inputs.render ++
    ",\"outputs\":" ++ s.outputs.render ++
    ",\"constraints\":" ++ s.constraints.render ++ "\x7d"

/-- `CapabilitySpec::spec_hash`: SHA-256 of the canonical JSON, hex-encoded. -/
def CapabilitySpec.spec_hash (s : CapabilitySpec) : String :=
  sha256Hex (utf8Bytes s.canonicalJson)

def ExecutionRequest.canonicalJson (r : ExecutionRequest) : String :=
  "\x7b\"tool_name\":" ++ escapeJsonString r.tool_name ++
    ",\"arguments\":" ++ r.arguments.render ++ "\x7d"

/-- `ExecutionRequest::request_hash`: SHA-256 of the canonical JSON. -/
def ExecutionRequest.request_hash (r : ExecutionRequest) : String :=
  sha256Hex (utf8Bytes r.canonicalJson)

/-- Union type for what a gate evaluates. -/
inductive GateInput where
  | Creation (spec : CapabilitySpec) : GateInput
  | Execution (req : ExecutionRequest) : GateInput

def GateInput.hash : GateInput → String
  | .Creation spec => spec.spec_hash
  | .Execution req => req.request_hash

/- ### Decisions (girt-core/src/decision.rs) -/

/-- What a DEFER decision redirects to. -/
inductive DeferTarget where
  | RegistryTool (registry tool_name version : String) : DeferTarget
  | CliUtility (name description : String) : DeferTarget
  | ExtendTool (tool_name : String) (suggested_features : List String) : DeferTarget
deriving DecidableEq

/-- Decision outcome from a gate evaluation. -/
inductive Decision where
  | Allow : Decision
  | Deny (reason : String) : Decision
  | Defer (target : DeferTarget) : Decision
  | Ask (prompt context : String) : Decision
deriving DecidableEq

/-- Only Allow and Deny are terminal (eligible for caching). -/
def Decision.is_terminal : Decision → Bool
  | .Allow => true
  | .Deny _ => true
  | _ => false

/-- Which layer of the cascade produced the decision (the
`DecisionLayer` enum of decision.rs). -/
inductive DecisionLayer where
  | PolicyRules
  | Cache
  | RegistryLookup
  | CliCheck
  | LlmEvaluation
  | Hitl
deriving DecidableEq

/-- A decision paired with the layer that produced it. -/
structure LayeredDecision where
  decision : Decision
  layer : DecisionLayer
  rationale : Option String
deriving DecidableEq

/- ### Decision cache (girt-core/src/layers/cache.rs)

The `CacheLayer`'s HashMap<String, Decision> is modelled extensionally
as a lookup function; `store` is HashMap::insert. -/

def CacheMap := String → Option Decision

def cacheStore (c : CacheMap) (hash : String) (d : Decision) : CacheMap :=
  fun k => if k = hash then some d else c k

def cacheEmpty : CacheMap := fun _ => none

/- ### Policy rules layer (girt-core/src/layers/policy.rs)

The regex crate is an external collaborator: `rm pat text` models
"`Regex::new(pat)` compiles and matches `text`" (a pattern that fails to
compile never matches, exactly as in the source's `if let Ok(re)`
chains). -/

/-- A regex-match oracle standing in for the regex crate. -/
def RMatch := String → String → Bool

structure ConstraintPatterns where
  network_deny : Option (List String)
  storage_deny : Option (List String)
  secrets_deny : Option (List String)

structure PolicyPattern where
  description : String
  name_pattern : Option String
  description_pattern : Option String
  constraint_patterns : Option ConstraintPatterns

/-- `PolicyRulesLayer::matches_constraints`: any network_deny pattern
matching any network host, or any storage_deny pattern matching any
storage path.  (`secrets_deny` is carried but never consulted, as in the
source.) -/
def matches_constraints (rm : RMatch) (pats : ConstraintPatterns) (spec : CapabilitySpec) :
    Bool :=
  (match pats.network_deny with
   | some pl => pl.any (fun pat => spec.constraints.network.any (fun host => rm pat host))
   | none => false) ||
  (match pats.storage_deny with
   | some pl => pl.any (fun pat => spec.constraints.storage.any (fun path => rm pat path))
   | none => false)

/-- `PolicyRulesLayer::matches_spec`: name pattern, else description
pattern, else constraint patterns. -/
def matches_spec (rm : RMatch) (p : PolicyPattern) (spec : CapabilitySpec) : Bool :=
  (match p.name_pattern with
   | some np => rm np spec.name
   | none => false) ||
  (match p.description_pattern with
   | some dp => rm dp spec.description
   | none => false) ||
  (match p.constraint_patterns with
   | some cp => matches_constraints rm cp spec
   | none => false)

/-- `PolicyRulesLayer::matches_execution`: only the name pattern is
tested, against the request's tool name. -/
def matches_execution (rm : RMatch) (p : PolicyPattern) (req : ExecutionRequest) : Bool :=
  match p.name_pattern with
  | some np => rm np req.tool_name
  | none => false

def patternMatches (rm : RMatch) (p : PolicyPattern) : GateInput → Bool
  | .Creation spec => matches_spec rm p spec
  | .Execution req => matches_execution rm p req

/-- The deny loop of `PolicyRulesLayer::evaluate`: first matching deny
pattern short-circuits. -/
def denyScan (rm : RMatch) : List PolicyPattern → GateInput → Option Decision
  | [], _ => none
  | p :: rest, input =>
    if patternMatches rm p input then
      some (Decision.Deny ("Policy rule: " ++ p.description))
    else
      denyScan rm rest input

/-- The allow loop of `PolicyRulesLayer::evaluate`. -/
def allowScan (rm : RMatch) : List PolicyPattern → GateInput → Option Decision
  | [], _ => none
  | p :: rest, input =>
    if patternMatches rm p input then some Decision.Allow else allowScan rm rest input

/-- `PolicyRulesLayer::evaluate`: deny patterns first, then allow
patterns, else pass-through (`none`). -/
def policyEvaluate (rm : RMatch) (deny allow : List PolicyPattern) (input : GateInput) :
    Option Decision :=
  match denyScan rm deny input with
  | some d => some d
  | none => allowScan rm allow input

/- ### CLI check layer (girt-core/src/layers/cli_check.rs) -/

structure CliUtility where
  name : String
  description : String
  keywords : List String

/-- A word-constituent character: alphanumeric or underscore.  Models
the `c.is_alphanumeric() || c == '_'` test of `contains_word` (the two
classifications agree on the ASCII range the layer operates on). -/
def isWordChar (c : Char) : Bool := c.isAlphanum || c = '_'

def toLowerChar (c : Char) : Char :=
  if 65 ≤ c.toNat && c.toNat ≤ 90 then Char.ofNat (c.toNat + 32) else c

/-- ASCII model of `str::to_lowercase` (the Unicode-aware Rust function
coincides with it on the ASCII names, descriptions and keywords this
layer compares). -/
def lowerAscii (s : String) : String := String.mk (s.data.map toLowerChar)

/-- First index `i ≥ start` at which `word` occurs in `text`
(`text[start..].find(word)`, reported as an absolute index).  `fuel`
bounds the scan; callers pass enough for the whole text. -/
def subFind (text word : List Char) (start : Nat) : Nat → Option Nat
  | 0 => none
  | fuel + 1 =>
    if word.isPrefixOf (text.drop start) then some start
    else subFind text word (start + 1) fuel

/-- The retry loop of `contains_word`: find the next occurrence, accept
it if bounded by non-word characters or string endpoints, otherwise
resume the search one position later. -/
def containsWordGo (text word : List Char) (start : Nat) : Nat → Bool
  | 0 => false
  | fuel + 1 =>
    match subFind text word start (text.length + 1 - start) with
    | none => false
    | some abs =>
      let beforeOk := abs = 0 || !(((text.get? (abs - 1)).map isWordChar).getD false)
      let afterOk := text.length ≤ abs + word.length ||
        !(((text.get? (abs + word.length)).map isWordChar).getD false)
      if beforeOk && afterOk then true
      else containsWordGo text word (abs + 1) fuel

/-- `contains_word`: whole-word occurrence test (character-level model
of the byte-level Rust loop; the two coincide on the lowercased ASCII
text this layer feeds it). -/
def contains_word (text word : String) : Bool :=
  containsWordGo text.data word.data 0 (text.data.length + 1)

/-- `CliCheckLayer::evaluate`'s utility scan: the first utility with a
keyword that whole-word-matches the lowercased name or description
produces a Defer. -/
def cliScan (nameLower descLower : String) : List CliUtility → Option Decision
  | [] => none
  | u :: rest =>
    if u.keywords.any (fun kw =>
        contains_word nameLower (lowerAscii kw) || contains_word descLower (lowerAscii kw)) then
      some (Decision.Defer (DeferTarget.CliUtility u.name u.description))
    else
      cliScan nameLower descLower rest

/-- `CliCheckLayer::evaluate`: creation inputs only. -/
def cliCheckEvaluate (utilities : List CliUtility) : GateInput → Option Decision
  | .Execution _ => none
  | .Creation spec => cliScan (lowerAscii spec.name) (lowerAscii spec.description) utilities

/-- `default_utilities()` from cli_check.rs. -/
def default_utilities : List CliUtility :=
  [⟨"jq", "Command-line JSON processor", ["jq", "json_query", "json_filter"]⟩,
   ⟨"curl", "Transfer data with URLs", ["curl"]⟩,
   ⟨"ripgrep", "Recursively search directories for a regex pattern", ["ripgrep", "rg"]⟩,
   ⟨"sed", "Stream editor for filtering and transforming text", ["sed", "stream_edit"]⟩,
   ⟨"awk", "Pattern scanning and processing language", ["awk"]⟩,
   ⟨"git", "Distributed version control system", ["git_clone", "git_commit", "git_push"]⟩]

/- ### Registry lookup layer (girt-core/src/layers/registry.rs)

`StubRegistryClient::search` always returns `Ok(vec![])`, so every
registry in the configured list yields no match and the scan falls
through. -/

structure RegistryConfig where
  name : String
  url : String

def regScan : List RegistryConfig → Option Decision
  | [] => none
  | _ :: rest => regScan rest

/-- `RegistryLookupLayer::evaluate`: creation inputs only. -/
def registryEvaluate (registries : List RegistryConfig) : GateInput → Option Decision
  | .Execution _ => none
  | .Creation _ => regScan registries

/- ### LLM evaluation layer (girt-core/src/layers/llm.rs)

The evaluator (Anthropic client or stub) is an external collaborator,
modelled as a function returning `Except`. -/

inductive LlmDecisionKind where
  | allow
  | deny
  | ask
deriving DecidableEq

structure LlmDecision where
  decision : LlmDecisionKind
  rationale : String

def LlmEvaluator := GateInput → Except String LlmDecision

/-- `LlmEvaluationLayer::evaluate`: map the structured response;
evaluator errors are pass-through (`none`), not decisions. -/
def llmLayerEvaluate (ev : LlmEvaluator) (input : GateInput) : Option Decision :=
  match ev input with
  | .ok r =>
    some (match r.decision with
      | .allow => Decision.Allow
      | .deny => Decision.Deny r.rationale
      | .ask => Decision.Ask "LLM evaluation requires human input" r.rationale)
  | .error _ => none

/- ### HITL layer (girt-core/src/layers/hitl.rs) -/

inductive HitlResponse where
  | Allow
  | Deny (reason : String)
deriving DecidableEq

def HitlResponder := GateInput → String → Except String HitlResponse

def hitlContext : GateInput → String
  | .Creation spec => "Capability request '" ++ spec.name ++ "': " ++ spec.description
  | .Execution req => "Tool invocation '" ++ req.tool_name ++ "'"

/-- `HitlLayer::evaluate`: always produces a decision — responder
errors become Ask. -/
def hitlLayerEvaluate (responder : HitlResponder) (input : GateInput) : Option Decision :=
  match responder input (hitlContext input) with
  | .ok .Allow => some Decision.Allow
  | .ok (.Deny reason) => some (Decision.Deny reason)
  | .error e => some (Decision.Ask (hitlContext input) ("HITL required: " ++ e))

/- ### The cascade (girt-core/src/engine.rs) -/

/-- What a layer's `evaluate` returns: `Ok(Some(d))`, `Ok(None)`, or
`Err(e)`. -/
inductive LayerResult where
  | decision (d : Decision) : LayerResult
  | passThrough : LayerResult
  | layerError (msg : String) : LayerResult

/-- A cascade layer paired with its `DecisionLayerEnum` tag, as in the
`Vec<(&dyn DecisionLayer, DecisionLayerEnum)>` the engine builds.  Only
the cache layer reads the cache state. -/
structure ModelLayer where
  tag : DecisionLayer
  eval : GateInput → CacheMap → LayerResult

/-- Wrap a layer whose `evaluate` never returns `Err` (all concrete
girt-core layers except the cache, which reads state). -/
def optLayer (tag : DecisionLayer) (f : GateInput → Option Decision) : ModelLayer :=
  ⟨tag, fun input _ =>
    match f input with
    | some d => LayerResult.decision d
    | none => LayerResult.passThrough⟩

/-- The cache layer: hit returns the stored decision, miss passes
through. -/
def cacheModelLayer : ModelLayer :=
  ⟨DecisionLayer.Cache, fun input c =>
    match c input.hash with
    | some d => LayerResult.decision d
    | none => LayerResult.passThrough⟩

/-- `DecisionEngine::run_cascade`.  Layers run in order; a decision
short-circuits (terminal ones are stored in the gate's cache first); a
pass-through or error moves on; an exhausted cascade falls back to a
deny attributed to HITL. -/
def runCascade : List ModelLayer → GateInput → CacheMap →
    Except String (LayeredDecision × CacheMap)
  | [], _, c =>
    .ok (⟨Decision.Deny "All cascade layers exhausted without producing a decision",
          DecisionLayer.Hitl, some "Fallback deny: no layer produced a decision"⟩, c)
  | l :: rest, input, c =>
    match l.eval input c with
    | .decision d =>
      let c' := if d.is_terminal then cacheStore c input.hash d else c
      .ok (⟨d, l.tag, none⟩, c')
    | .passThrough => runCascade rest input c
    | .layerError _ => runCascade rest input c

/-- Configuration of the creation gate's layers
(`CreationLayers` in engine.rs, with the external collaborators each
layer wraps made explicit). -/
structure CreationLayersModel where
  rm : RMatch
  deny_patterns : List PolicyPattern
  allow_patterns : List PolicyPattern
  registries : List RegistryConfig
  utilities : List CliUtility
  llm : LlmEvaluator
  hitl : HitlResponder

/-- Configuration of the execution gate's layers (`ExecutionLayers`). -/
structure ExecutionLayersModel where
  rm : RMatch
  deny_patterns : List PolicyPattern
  allow_patterns : List PolicyPattern
  llm : LlmEvaluator
  hitl : HitlResponder

/-- The creation cascade order: policy → cache → registry → CLI → LLM →
HITL. -/
def creationLayerList (m : CreationLayersModel) : List ModelLayer :=
  [optLayer DecisionLayer.PolicyRules (policyEvaluate m.rm m.deny_patterns m.allow_patterns),
   cacheModelLayer,
   optLayer DecisionLayer.RegistryLookup (registryEvaluate m.registries),
   optLayer DecisionLayer.CliCheck (cliCheckEvaluate m.utilities),
   optLayer DecisionLayer.LlmEvaluation (llmLayerEvaluate m.llm),
   optLayer DecisionLayer.Hitl (hitlLayerEvaluate m.hitl)]

/-- The execution cascade order: policy → cache → LLM → HITL. -/
def executionLayerList (m : ExecutionLayersModel) : List ModelLayer :=
  [optLayer DecisionLayer.PolicyRules (policyEvaluate m.rm m.deny_patterns m.allow_patterns),
   cacheModelLayer,
   optLayer DecisionLayer.LlmEvaluation (llmLayerEvaluate m.llm),
   optLayer DecisionLayer.Hitl (hitlLayerEvaluate m.hitl)]

/-- `DecisionEngine::evaluate` for the creation gate; the gate's cache
is threaded as state. -/
def evaluateCreation (m : CreationLayersModel) (c : CacheMap) (input : GateInput) :
    Except String (LayeredDecision × CacheMap) :=
  runCascade (creationLayerList m) input c

/-- `DecisionEngine::evaluate` for the execution gate. -/
def evaluateExecution (m : ExecutionLayersModel) (c : CacheMap) (input : GateInput) :
    Except String (LayeredDecision × CacheMap) :=
  runCascade (executionLayerList m) input c

/-- Modelled from the spec: `DecisionEngine::with_policy_only_creation`
is invoked by girt-proxy/src/main.rs when `security.creation_gate` is
"policy_only", but its definition is not among the sources.  Per the
spec's bootstrap mode, "the cascade runs policy-rules and, on
pass-through, returns `Allow` directly — bypassing LLM and HITL". -/
def policyOnlyCreationEvaluate (rm : RMatch) (deny allow : List PolicyPattern)
    (input : GateInput) : Decision :=
  match policyEvaluate rm deny allow input with
  | some d => d
  | none => Decision.Allow

/- ### Pipeline types (girt-pipeline/src/types.rs) -/

inductive BugTicketType where
  | FunctionalDefect
  | SecurityVulnerability
deriving DecidableEq

/-- Severity tier for bug tickets; `High` is the serde default. -/
inductive BugTicketSeverity where
  | Critical
  | High
  | Medium
  | Low
deriving DecidableEq

/-- A bug ticket from QA or Red Team back to the Engineer. -/
structure BugTicket where
  target : String
  ticket_type : BugTicketType
  severity : BugTicketSeverity
  input : Json
  expected : String
  actual : String
  remediation_directive : String

/-- `BugTicket::is_blocking`: severity is Critical or High. -/
def BugTicket.is_blocking (t : BugTicket) : Bool :=
  match t.severity with
  | .Critical => true
  | .High => true
  | _ => false

structure QaResult where
  passed : Bool
  tests_run : Nat
  tests_passed : Nat
  tests_failed : Nat
  bug_tickets : List BugTicket

structure SecurityResult where
  passed : Bool
  exploits_attempted : Nat
  exploits_succeeded : Nat
  bug_tickets : List BugTicket

structure BuildOutput where
  source_code : String
  wit_definition : String
  policy_yaml : String
  language : String

inductive SpecAction where
  | Build
  | RecommendExtend
deriving DecidableEq

inductive ComplexityHint where
  | Low
  | High
deriving DecidableEq

structure RefinedSpec where
  action : SpecAction
  spec : CapabilitySpec
  design_notes : String
  extend_target : Option String
  extend_features : Option (List String)
  complexity_hint : Option ComplexityHint

/-- Circuit-breaker policy (girt-pipeline/src/config.rs). -/
inductive CircuitBreakerPolicy where
  | Ask
  | Proceed
  | Fail
deriving DecidableEq

/-- The pipeline errors the build loop can produce: the circuit breaker
with attempts and ticket summary, or a propagated agent failure. -/
inductive PipelineError where
  | CircuitBreaker (attempts : Nat) (summary : String)
  | AgentError (msg : String)

/-- The final build artifact.  The wall-clock `timings` and token-usage
fields of the Rust struct are measurement side effects and are elided
from the model. -/
structure BuildArtifact where
  spec : CapabilitySpec
  refined_spec : RefinedSpec
  build_output : BuildOutput
  qa_result : QaResult
  security_result : SecurityResult
  build_iterations : Nat
  escalated : Bool
  escalated_tickets : List BugTicket

/- ### Bug-ticket deserialization (serde on `BugTicket`)

serde's derived Deserialize for `BugTicket`: all fields are required
except `severity`, which carries `#[serde(default)]` and falls back to
`BugTicketSeverity::default() = High` when the field is absent. -/

def lookupField : List (String × Json) → String → Option Json
  | [], _ => none
  | (k, v) :: rest, key => if k = key then some v else lookupField rest key

def asString : Json → Option String
  | .str s => some s
  | _ => none

def parseSeverity (j : Json) : Option BugTicketSeverity :=
  match asString j with
  | some s =>
    if s = "critical" then some BugTicketSeverity.Critical
    else if s = "high" then some BugTicketSeverity.High
    else if s = "medium" then some BugTicketSeverity.Medium
    else if s = "low" then some BugTicketSeverity.Low
    else none
  | none => none

def parseTicketType (j : Json) : Option BugTicketType :=
  match asString j with
  | some s =>
    if s = "functional_defect" then some BugTicketType.FunctionalDefect
    else if s = "security_vulnerability" then some BugTicketType.SecurityVulnerability
    else none
  | none => none

/-- Deserialize a `BugTicket` from a JSON object. -/
def parseBugTicket (j : Json) : Option BugTicket :=
  match j with
  | .obj fields =>
    match (lookupField fields "target").bind asString with
    | none => none
    | some target =>
      match (lookupField fields "ticket_type").bind parseTicketType with
      | none => none
      | some ticket_type =>
        match
          (match lookupField fields "severity" with
           | none => some BugTicketSeverity.High
           | some v => parseSeverity v) with
        | none => none
        | some severity =>
          match lookupField fields "input" with
          | none => none
          | some input =>
            match (lookupField fields "expected").bind asString with
            | none => none
            | some expected =>
              match (lookupField fields "actual").bind asString with
              | none => none
              | some actual =>
                match (lookupField fields "remediation_directive").bind asString with
                | none => none
                | some remediation_directive =>
                  some ⟨target, ticket_type, severity, input, expected, actual,
                    remediation_directive⟩
  | _ => none

/- ### The build loop (girt-pipeline/src/orchestrator.rs) -/

/-- Rust `Debug` rendering of a severity, as used by
`format_ticket_summary`. -/
def severityDebug : BugTicketSeverity → String
  | .Critical => "Critical"
  | .High => "High"
  | .Medium => "Medium"
  | .Low => "Low"

def ticketTypeDebug : BugTicketType → String
  | .FunctionalDefect => "FunctionalDefect"
  | .SecurityVulnerability => "SecurityVulnerability"

/-- `format_ticket_summary`. -/
def format_ticket_summary (tickets : List BugTicket) : String :=
  String.intercalate "; "
    (tickets.enum.map (fun it =>
      "#" ++ toString (it.1 + 1) ++ ": [" ++ severityDebug it.2.severity ++ "/" ++
        ticketTypeDebug it.2.ticket_type ++ "] expected: " ++ it.2.expected ++
        ", actual: " ++ it.2.actual))

/-- The LLM-driven pipeline agents, external collaborators of the build
loop.  Each is indexed by the iteration at which it is invoked, so a
stubbed sequence of responses (as in the e2e tests) is expressible. -/
structure PipelineAgents where
  qaAt : Nat → BuildOutput → Except String QaResult
  redTeamAt : Nat → BuildOutput → Except String SecurityResult
  fixAt : Nat → BuildOutput → BugTicket → Except String BuildOutput

/-- The `loop` body of `Orchestrator::build_loop`: run QA and red-team,
union the tickets (QA first), partition by `is_blocking`; success when
no blocking ticket remains, circuit-breaker when the iteration limit is
reached (Fail errors, Ask and Proceed ship with `escalated = true` and
the remaining blocking tickets), otherwise fix the first blocking
ticket and iterate. -/
def buildLoopGo (ag : PipelineAgents) (pol : CircuitBreakerPolicy) (max_iterations : Nat)
    (spec : RefinedSpec) (build_output : BuildOutput) (iteration : Nat) :
    Except PipelineError BuildArtifact :=
  match ag.qaAt iteration build_output with
  | .error e => .error (.AgentError e)
  | .ok qa_result =>
    match ag.redTeamAt iteration build_output with
    | .error e => .error (.AgentError e)
    | .ok security_result =>
      let all_tickets := qa_result.bug_tickets ++ security_result.bug_tickets
      let blocking := all_tickets.filter (fun t => t.is_blocking)
      if blocking.isEmpty then
        .ok ⟨spec.spec, spec, build_output, qa_result, security_result, iteration, false, []⟩
      else if _h : max_iterations ≤ iteration then
        match pol with
        | .Fail => .error (.CircuitBreaker iteration (format_ticket_summary blocking))
        | .Ask =>
          .ok ⟨spec.spec, spec, build_output, qa_result, security_result, iteration,
               true, blocking⟩
        | .Proceed =>
          .ok ⟨spec.spec, spec, build_output, qa_result, security_result, iteration,
               true, blocking⟩
      else
        match blocking.head? with
        | some ticket =>
          match ag.fixAt iteration build_output ticket with
          | .error e => .error (.AgentError e)
          | .ok fixed_output => buildLoopGo ag pol max_iterations spec fixed_output (iteration + 1)
        | none => buildLoopGo ag pol max_iterations spec build_output (iteration + 1)
termination_by max_iterations - iteration
decreasing_by
  · omega
  · omega

/-- `Orchestrator::build_loop`: initial engineer build, then the loop
starting at iteration 1. -/
def buildLoop (engineerBuild : Except String BuildOutput) (ag : PipelineAgents)
    (pol : CircuitBreakerPolicy) (max_iterations : Nat) (spec : RefinedSpec) :
    Except PipelineError BuildArtifact :=
  match engineerBuild with
  | .error e => .error (.AgentError e)
  | .ok bo => buildLoopGo ag pol max_iterations spec bo 1

/-- The blocking tickets still present in an artifact's final QA and
red-team results (QA first, as the loop unions them). -/
def artifactBlocking (a : BuildArtifact) : List BugTicket :=
  (a.qa_result.bug_tickets ++ a.security_result.bug_tickets).filter (fun t => t.is_blocking)

/- ### Runtime lifecycle (girt-runtime/src/lifecycle.rs) -/

/-- Tool metadata stored alongside a WASM component
(girt-runtime/src/storage.rs). -/
structure ComponentMeta where
  component_id : String
  tool_name : String
  description : String
  input_schema : Json
  wasm_hash : String
  built_at : Nat

/-- HashMap::insert on an association-list model: replace the entry if
the key is present, otherwise add it. -/
def hmInsert (k : String) (v : β) : List (String × β) → List (String × β)
  | [] => [(k, v)]
  | (k', v') :: rest => if k' = k then (k, v) :: rest else (k', v') :: hmInsert k v rest

def hmLookup (k : String) : List (String × β) → Option β
  | [] => none
  | (k', v') :: rest => if k' = k then some v' else hmLookup k rest

/-- The two protected indexes of `LifecycleManager`.  The compiled
`InstancePre` carried with each component is an opaque runtime object;
the registered metadata is what the model tracks. -/
structure RuntimeState where
  components : List (String × ComponentMeta)
  tool_index : List (String × String)

def emptyRuntimeState : RuntimeState := ⟨[], []⟩

inductive RuntimeError where
  | InstantiationFailed (msg : String)
  | StorageError (msg : String)
  | ComponentNotFound (id : String)
  | ToolNotFound (name : String)

/-- `LifecycleManager::load_component`.  The disk write
(`storage.store`), the compile (`storage.load_or_compile`) and the
pre-instantiation (`linker.instantiate_pre`) are external effects,
passed as `Except` results.  Fast path: an already-loaded component id
returns immediately with no state change and no external call. -/
def load_component (storeRes compileRes instRes : Except String Unit)
    (st : RuntimeState) (meta : ComponentMeta) :
    Except RuntimeError (String × RuntimeState) :=
  if (hmLookup meta.component_id st.components).isSome then
    .ok (meta.component_id, st)
  else
    match storeRes with
    | .error e => .error (.StorageError e)
    | .ok _ =>
      match compileRes with
      | .error e => .error (.StorageError e)
      | .ok _ =>
        match instRes with
        | .error e => .error (.InstantiationFailed (meta.component_id ++ ": " ++ e))
        | .ok _ =>
          .ok (meta.component_id,
            ⟨hmInsert meta.component_id meta st.components,
             hmInsert meta.tool_name meta.component_id st.tool_index⟩)

/-- `LifecycleManager::list_tools`: metadata of all loaded components. -/
def list_tools (st : RuntimeState) : List ComponentMeta :=
  st.components.map (fun e => e.2)

def Hash8.Bounded (x : Hash8) : Prop :=
  x.h0 < w32 ∧ x.h1 < w32 ∧ x.h2 < w32 ∧ x.h3 < w32 ∧
  x.h4 < w32 ∧ x.h5 < w32 ∧ x.h6 < w32 ∧ x.h7 < w32

/-- A family of specs whose canonical serializations are pairwise
distinct (the name is `k` copies of "a"). -/
def aSpec (k : Nat) : CapabilitySpec :=
  ⟨String.mk (List.replicate k 'a'), "", Json.null, Json.null, ⟨[], [], []⟩⟩

/-- A creation gate whose policy layer denies the spec named "a"
(the regex oracle is literal equality). -/
def denyAModel : CreationLayersModel :=
  ⟨fun pat text => pat == text,
   [⟨"deny tool a", some "a", none, none⟩], [], [], [],
   fun _ => .error "llm offline", fun _ _ => .error "no responder"⟩

def specA : CapabilitySpec := ⟨"a", "", Json.null, Json.null, ⟨[], [], []⟩⟩

/-- A creation gate whose LLM evaluator denies every input (all
cheaper layers pass through). -/
def llmDenyModel : CreationLayersModel :=
  ⟨fun _ _ => false, [], [], [], [],
   fun _ => .ok ⟨LlmDecisionKind.deny, "dangerous"⟩, fun _ _ => .error "no responder"⟩

def specT : CapabilitySpec := ⟨"t", "", Json.null, Json.null, ⟨[], [], []⟩⟩

/-- Concrete happy-path pipeline data for exercising the build loop:
QA and red-team pass on the first iteration. -/
def happySpec : RefinedSpec :=
  ⟨SpecAction.Build, ⟨"t", "d", Json.null, Json.null, ⟨[], [], []⟩⟩, "", none, none, none⟩

def happyOutput : BuildOutput :=
  ⟨"fn main() \x7b\x7d", "package test:tool;", "version: 1.0", "rust"⟩

def happyAgents : PipelineAgents :=
  ⟨fun _ _ => .ok ⟨true, 5, 5, 0, []⟩, fun _ _ => .ok ⟨true, 6, 0, []⟩, fun _ b _ => .ok b⟩

def happyArtifact : BuildArtifact :=
  ⟨happySpec.spec, happySpec, happyOutput, ⟨true, 5, 5, 0, []⟩, ⟨true, 6, 0, []⟩, 1, false, []⟩

/-- The fallback verdict `run_cascade` produces when every layer has
passed through or errored. -/
def fallbackDecision : LayeredDecision :=
  ⟨Decision.Deny "All cascade layers exhausted without producing a decision",
   DecisionLayer.Hitl, some "Fallback deny: no layer produced a decision"⟩

/-- The boundary condition of the spec: a position just outside the
occurrence is acceptable when it is past a string endpoint (`none`) or
holds a non-alphanumeric, non-underscore character. -/
def boundaryOk (oc : Option Char) : Bool :=
  match oc with
  | none => true
  | some c => !(isWordChar c)

/-- The spec's notion of a whole-word occurrence of `word` in `text` at
position `i`: the word occurs there and both neighbours are boundary
positions. -/
def wholeWordAt (text word : List Char) (i : Nat) : Bool :=
  word.isPrefixOf (text.drop i) &&
  (i == 0 || boundaryOk (text.get? (i - 1))) &&
  boundaryOk (text.get? (i + word.length))

/-! ## Supporting lemmas -/

theorem denyScan_eq_find (rm : RMatch) (l : List PolicyPattern) (input : GateInput) :
    denyScan rm l input =
      (l.find? (fun p => patternMatches rm p input)).map
        (fun p => Decision.Deny ("Policy rule: " ++ p.description)) := by
  induction l with
  | nil => rfl
  | cons p rest ih =>
    by_cases hm : patternMatches rm p input
    · simp [denyScan, hm, List.find?_cons_of_pos]
    · simp [denyScan, hm, List.find?_cons_of_neg, ih]

theorem allowScan_eq_find (rm : RMatch) (l : List PolicyPattern) (input : GateInput) :
    allowScan rm l input =
      (l.find? (fun p => patternMatches rm p input)).map (fun _ => Decision.Allow) := by
  induction l with
  | nil => rfl
  | cons p rest ih =>
    by_cases hm : patternMatches rm p input
    · simp [allowScan, hm, List.find?_cons_of_pos]
    · simp [allowScan, hm, List.find?_cons_of_neg, ih]

/-! ## Claim theorems -/

/-- Claim C3: for every input (creation or execution flavour) and any
behaviour of the regex engine, the policy-rules layer consults every
deny pattern before any allow pattern: the first matching deny pattern
short-circuits to `Deny` with reason exactly `"Policy rule: "` followed
by that pattern's description; failing that, the first matching allow
pattern short-circuits to `Allow`; and with no match at all the layer
passes through. -/
theorem policy_rules_deny_before_allow (rm : RMatch) (deny allow : List PolicyPattern)
    (input : GateInput) :
    policyEvaluate rm deny allow input =
      match deny.find? (fun p => patternMatches rm p input) with
      | some p => some (Decision.Deny ("Policy rule: " ++ p.description))
      | none =>
        match allow.find? (fun p => patternMatches rm p input) with
        | some _ => some Decision.Allow
        | none => none := by
  rw [policyEvaluate, denyScan_eq_find, allowScan_eq_find]
  cases deny.find? (fun p => patternMatches rm p input) with
  | some p => rfl
  | none =>
    cases allow.find? (fun p => patternMatches rm p input) with
    | some p => rfl
    | none => rfl

/-- Claim C10: on the execution gate a policy pattern can match only
through its `name_pattern` against the request's tool name; a pattern
with no `name_pattern` (only a description pattern or constraint
patterns) never matches an execution request, and deleting all such
patterns leaves the policy layer's verdict on execution inputs
unchanged. -/
theorem execution_match_requires_name_pattern :
    (∀ (rm : RMatch) (p : PolicyPattern) (req : ExecutionRequest),
        p.name_pattern = none → matches_execution rm p req = false) ∧
    (∀ (rm : RMatch) (deny allow : List PolicyPattern) (req : ExecutionRequest),
        policyEvaluate rm deny allow (GateInput.Execution req) =
          policyEvaluate rm (deny.filter (fun p => p.name_pattern.isSome))
            (allow.filter (fun p => p.name_pattern.isSome)) (GateInput.Execution req)) := by
  have hmatch : ∀ (rm : RMatch) (p : PolicyPattern) (req : ExecutionRequest),
      p.name_pattern = none → matches_execution rm p req = false := by
    intro rm p req hnp
    rw [matches_execution, hnp]
  have hdeny : ∀ (rm : RMatch) (l : List PolicyPattern) (req : ExecutionRequest),
      denyScan rm l (GateInput.Execution req) =
        denyScan rm (l.filter (fun p => p.name_pattern.isSome)) (GateInput.Execution req) := by
    intro rm l req
    induction l with
    | nil => rfl
    | cons p rest ih =>
      cases hnp : p.name_pattern with
      | none =>
        have : patternMatches rm p (GateInput.Execution req) = false := hmatch rm p req hnp
        simp [denyScan, this, List.filter, hnp, ih]
      | some np =>
        simp only [List.filter, hnp, Option.isSome_some]
        simp [denyScan, ih]
  have hallow : ∀ (rm : RMatch) (l : List PolicyPattern) (req : ExecutionRequest),
      allowScan rm l (GateInput.Execution req) =
        allowScan rm (l.filter (fun p => p.name_pattern.isSome)) (GateInput.Execution req) := by
    intro rm l req
    induction l with
    | nil => rfl
    | cons p rest ih =>
      cases hnp : p.name_pattern with
      | none =>
        have : patternMatches rm p (GateInput.Execution req) = false := hmatch rm p req hnp
        simp [allowScan, this, List.filter, hnp, ih]
      | some np =>
        simp only [List.filter, hnp, Option.isSome_some]
        simp [allowScan, ih]
  exact ⟨hmatch, fun rm deny allow req => by
    rw [policyEvaluate, policyEvaluate, hdeny, hallow]⟩

/-- Witness for C10: a pattern carrying only a description pattern and
a constraint pattern, evaluated with an oracle that matches everything,
still fails to match an execution request. -/
theorem execution_match_requires_name_pattern_witness :
    matches_execution (fun _ _ => true)
      ⟨"deny by description", none, some ".*",
        some ⟨some [".*"], some [".*"], some [".*"]⟩⟩
      ⟨"shell_exec", Json.null⟩ = false :=
  execution_match_requires_name_pattern.1 (fun _ _ => true) _ _ rfl

theorem cacheStore_self (c : CacheMap) (h : String) (d : Decision) :
    cacheStore c h d h = some d := by
  simp [cacheStore]

theorem runCascade_optLayer_cons (t : DecisionLayer) (f : GateInput → Option Decision)
    (rest : List ModelLayer) (input : GateInput) (c : CacheMap) :
    runCascade (optLayer t f :: rest) input c =
      match f input with
      | some d =>
        .ok (⟨d, t, none⟩, if d.is_terminal then cacheStore c input.hash d else c)
      | none => runCascade rest input c := by
  cases hf : f input <;> simp [runCascade, optLayer, hf]

theorem runCascade_cache_cons (rest : List ModelLayer) (input : GateInput) (c : CacheMap) :
    runCascade (cacheModelLayer :: rest) input c =
      match c input.hash with
      | some d =>
        .ok (⟨d, DecisionLayer.Cache, none⟩,
          if d.is_terminal then cacheStore c input.hash d else c)
      | none => runCascade rest input c := by
  cases hc : c input.hash <;> simp [runCascade, cacheModelLayer, hc]

theorem hitl_layer_decides (r : HitlResponder) (input : GateInput) :
    ∃ d, hitlLayerEvaluate r input = some d := by
  rw [hitlLayerEvaluate]
  cases r input (hitlContext input) with
  | ok resp => cases resp <;> exact ⟨_, rfl⟩
  | error e => exact ⟨_, rfl⟩

/-- A cascade whose final layer always produces a decision never falls
back; the result's rationale field is `none` (the fallback carries
`some _`). -/
theorem runCascade_append_last_decides (ls : List ModelLayer) (l : ModelLayer)
    (input : GateInput)
    (hl : ∀ c' : CacheMap, ∃ d, l.eval input c' = LayerResult.decision d) :
    ∀ (c : CacheMap) (ld : LayeredDecision) (c1 : CacheMap),
      runCascade (ls ++ [l]) input c = .ok (ld, c1) → ld.rationale = none := by
  induction ls with
  | nil =>
    intro c ld c1 h
    obtain ⟨d, hd⟩ := hl c
    rw [List.nil_append, runCascade, hd] at h
    simp only [Except.ok.injEq, Prod.mk.injEq] at h
    rw [← h.1]
  | cons x xs ih =>
    intro c ld c1 h
    rw [List.cons_append, runCascade] at h
    cases he : x.eval input c with
    | decision d =>
      rw [he] at h
      simp only [Except.ok.injEq, Prod.mk.injEq] at h
      rw [← h.1]
    | passThrough =>
      rw [he] at h
      exact ih c ld c1 h
    | layerError e =>
      rw [he] at h
      exact ih c ld c1 h

/-- Any short-circuiting terminal decision (rationale `none`, i.e. not
the fallback) is stored in the cache under the input's fingerprint
before the cascade returns. -/
theorem runCascade_stores_terminal (layers : List ModelLayer) (input : GateInput) :
    ∀ (c : CacheMap) (ld : LayeredDecision) (c1 : CacheMap),
      runCascade layers input c = .ok (ld, c1) →
      ld.decision.is_terminal = true → ld.rationale = none →
      c1 input.hash = some ld.decision := by
  induction layers with
  | nil =>
    intro c ld c1 h hterm hrat
    rw [runCascade] at h
    simp only [Except.ok.injEq, Prod.mk.injEq] at h
    rw [← h.1] at hrat
    simp at hrat
  | cons l rest ih =>
    intro c ld c1 h hterm hrat
    rw [runCascade] at h
    cases he : l.eval input c with
    | decision d =>
      rw [he] at h
      simp only [Except.ok.injEq, Prod.mk.injEq] at h
      obtain ⟨h1, h2⟩ := h
      subst h1
      rw [← h2, if_pos hterm]
      exact cacheStore_self c input.hash d
    | passThrough =>
      rw [he] at h
      exact ih c ld c1 h hterm hrat
    | layerError e =>
      rw [he] at h
      exact ih c ld c1 h hterm hrat

/-- Claim C2, amended: on either gate, a terminal decision D is stored
in that gate's cache keyed by the input fingerprint before the cascade
returns, and a subsequent evaluation of the same input (no intervening
invalidation) returns the same decision D — from the cache layer
whenever the first decision was not produced by the policy-rules layer
(which runs before the cache and deterministically reproduces its own
decision). -/
theorem cascade_caches_terminal_decisions :
    (∀ (m : CreationLayersModel) (c0 : CacheMap) (input : GateInput)
        (ld : LayeredDecision) (c1 : CacheMap),
        evaluateCreation m c0 input = .ok (ld, c1) →
        ld.decision.is_terminal = true →
        c1 input.hash = some ld.decision ∧
        ∃ ld2 c2, evaluateCreation m c1 input = .ok (ld2, c2) ∧
          ld2.decision = ld.decision ∧
          (ld.layer ≠ DecisionLayer.PolicyRules → ld2.layer = DecisionLayer.Cache)) ∧
    (∀ (m : ExecutionLayersModel) (c0 : CacheMap) (input : GateInput)
        (ld : LayeredDecision) (c1 : CacheMap),
        evaluateExecution m c0 input = .ok (ld, c1) →
        ld.decision.is_terminal = true →
        c1 input.hash = some ld.decision ∧
        ∃ ld2 c2, evaluateExecution m c1 input = .ok (ld2, c2) ∧
          ld2.decision = ld.decision ∧
          (ld.layer ≠ DecisionLayer.PolicyRules → ld2.layer = DecisionLayer.Cache)) := by
  constructor
  · intro m c0 input ld c1 h hterm
    have hrat : ld.rationale = none := by
      refine runCascade_append_last_decides
        [optLayer DecisionLayer.PolicyRules
            (policyEvaluate m.rm m.deny_patterns m.allow_patterns),
         cacheModelLayer,
         optLayer DecisionLayer.RegistryLookup (registryEvaluate m.registries),
         optLayer DecisionLayer.CliCheck (cliCheckEvaluate m.utilities),
         optLayer DecisionLayer.LlmEvaluation (llmLayerEvaluate m.llm)]
        (optLayer DecisionLayer.Hitl (hitlLayerEvaluate m.hitl)) input ?_ c0 ld c1 h
      intro c'
      obtain ⟨d, hd⟩ := hitl_layer_decides m.hitl input
      exact ⟨d, by simp [optLayer, hd]⟩
    have ha : c1 input.hash = some ld.decision :=
      runCascade_stores_terminal _ input c0 ld c1 h hterm hrat
    refine ⟨ha, ?_⟩
    cases hp : policyEvaluate m.rm m.deny_patterns m.allow_patterns input with
    | some d =>
      unfold evaluateCreation creationLayerList at h
      rw [runCascade_optLayer_cons] at h
      simp only [hp] at h
      simp only [Except.ok.injEq, Prod.mk.injEq] at h
      obtain ⟨h1, h2⟩ := h
      subst h1
      refine ⟨⟨d, DecisionLayer.PolicyRules, none⟩, cacheStore c1 input.hash d, ?_, rfl, ?_⟩
      · unfold evaluateCreation creationLayerList
        rw [runCascade_optLayer_cons]
        simp only [hp]
        rw [if_pos hterm]
      · intro habs
        exact absurd rfl habs
    | none =>
      refine ⟨⟨ld.decision, DecisionLayer.Cache, none⟩,
        cacheStore c1 input.hash ld.decision, ?_, rfl, fun _ => rfl⟩
      unfold evaluateCreation creationLayerList
      rw [runCascade_optLayer_cons]
      simp only [hp]
      rw [runCascade_cache_cons]
      simp only [ha]
      rw [if_pos hterm]
  · intro m c0 input ld c1 h hterm
    have hrat : ld.rationale = none := by
      refine runCascade_append_last_decides
        [optLayer DecisionLayer.PolicyRules
            (policyEvaluate m.rm m.deny_patterns m.allow_patterns),
         cacheModelLayer,
         optLayer DecisionLayer.LlmEvaluation (llmLayerEvaluate m.llm)]
        (optLayer DecisionLayer.Hitl (hitlLayerEvaluate m.hitl)) input ?_ c0 ld c1 h
      intro c'
      obtain ⟨d, hd⟩ := hitl_layer_decides m.hitl input
      exact ⟨d, by simp [optLayer, hd]⟩
    have ha : c1 input.hash = some ld.decision :=
      runCascade_stores_terminal _ input c0 ld c1 h hterm hrat
    refine ⟨ha, ?_⟩
    cases hp : policyEvaluate m.rm m.deny_patterns m.allow_patterns input with
    | some d =>
      unfold evaluateExecution executionLayerList at h
      rw [runCascade_optLayer_cons] at h
      simp only [hp] at h
      simp only [Except.ok.injEq, Prod.mk.injEq] at h
      obtain ⟨h1, h2⟩ := h
      subst h1
      refine ⟨⟨d, DecisionLayer.PolicyRules, none⟩, cacheStore c1 input.hash d, ?_, rfl, ?_⟩
      · unfold evaluateExecution executionLayerList
        rw [runCascade_optLayer_cons]
        simp only [hp]
        rw [if_pos hterm]
      · intro habs
        exact absurd rfl habs
    | none =>
      refine ⟨⟨ld.decision, DecisionLayer.Cache, none⟩,
        cacheStore c1 input.hash ld.decision, ?_, rfl, fun _ => rfl⟩
      unfold evaluateExecution executionLayerList
      rw [runCascade_optLayer_cons]
      simp only [hp]
      rw [runCascade_cache_cons]
      simp only [ha]
      rw [if_pos hterm]

theorem add32_lt (a b : Nat) : add32 a b < w32 :=
  Nat.mod_lt _ (by decide)

theorem processBlock_bounded (h : Hash8) (block : List Nat) :
    (processBlock h block).Bounded := by
  refine ⟨?_, ?_, ?_, ?_, ?_, ?_, ?_, ?_⟩ <;> exact add32_lt _ _

theorem sha256Init_bounded : Hash8.Bounded sha256Init := by
  refine ⟨?_, ?_, ?_, ?_, ?_, ?_, ?_, ?_⟩ <;> decide

theorem foldl_processBlock_bounded (bs : List (List Nat)) (h : Hash8) (hb : h.Bounded) :
    (bs.foldl processBlock h).Bounded := by
  induction bs generalizing h with
  | nil => exact hb
  | cons b rest ih =>
    rw [List.foldl_cons]
    exact ih _ (processBlock_bounded h b)

theorem sha256Words_bounded (msg : List Nat) : (sha256Words msg).Bounded :=
  foldl_processBlock_bounded _ _ sha256Init_bounded

/-- The digest is a 256-bit number: the range of `sha256Nat` is finite
while the domain of canonical serializations is not, which is what
drives the collision argument below. -/
theorem sha256Nat_lt (msg : List Nat) : sha256Nat msg < 2 ^ 256 := by
  obtain ⟨b0, b1, b2, b3, b4, b5, b6, b7⟩ := sha256Words_bounded msg
  unfold sha256Nat
  simp only [w32] at b0 b1 b2 b3 b4 b5 b6 b7 ⊢
  have h256 : (2 : Nat) ^ 256 =
      115792089237316195423570985008687907853269984665640564039457584007913129639936 := by
    norm_num
  rw [h256]
  omega

theorem escapeChars_replicate_a (k : Nat) :
    escapeChars (List.replicate k 'a') = List.replicate k 'a' := by
  induction k with
  | zero => rfl
  | succ n ih =>
    have ha : escChar 'a' = ['a'] := rfl
    simp [List.replicate_succ, escapeChars, ha, ih]

theorem aSpec_canonical_length (k : Nat) :
    (CapabilitySpec.canonicalJson (aSpec k)).length = 112 + k := by
  have hesc : (escapeJsonString (String.mk (List.replicate k 'a'))).length = k + 2 := by
    show ('"' :: escapeChars (List.replicate k 'a') ++ ['"']).length = k + 2
    rw [escapeChars_replicate_a]
    simp
  have h1 : ("\x7b\"name\":" : String).length = 8 := rfl
  have h2 : (",\"description\":" : String).length = 15 := rfl
  have h3 : (",\"inputs\":" : String).length = 10 := rfl
  have h4 : (",\"outputs\":" : String).length = 11 := rfl
  have h5 : (",\"constraints\":" : String).length = 15 := rfl
  have h6 : ("\x7d" : String).length = 1 := rfl
  have h7 : (escapeJsonString "").length = 2 := rfl
  have h8 : (Json.render Json.null).length = 4 := rfl
  have h9 : ((⟨[], [], []⟩ : CapabilityConstraints).render).length = 40 := rfl
  show ("\x7b\"name\":" ++ escapeJsonString (String.mk (List.replicate k 'a')) ++
      ",\"description\":" ++ escapeJsonString "" ++ ",\"inputs\":" ++ Json.render Json.null ++
      ",\"outputs\":" ++ Json.render Json.null ++ ",\"constraints\":" ++
      (⟨[], [], []⟩ : CapabilityConstraints).render ++ "\x7d").length = 112 + k
  simp only [String.length_append, hesc, h1, h2, h3, h4, h5, h6, h7, h8, h9]
  omega

theorem aSpec_canonical_inj (i j : Nat) (hij : i ≠ j) :
    CapabilitySpec.canonicalJson (aSpec i) ≠ CapabilitySpec.canonicalJson (aSpec j) := by
  intro hcanon
  have hlen := congrArg String.length hcanon
  rw [aSpec_canonical_length, aSpec_canonical_length] at hlen
  omega

/-- Counterexample to claim C7 as stated: `spec_fingerprint` cannot be
injective on canonical forms — the canonical serializations of the
`aSpec` family are pairwise distinct and unbounded in number while
SHA-256 digests form a finite set, so by the pigeonhole principle two
specs with different canonical serializations share a fingerprint.
This refutes the only-if direction of the biconditional. -/
theorem spec_fingerprint_not_injective :
    ¬ ∀ s1 s2 : CapabilitySpec,
        CapabilitySpec.spec_hash s1 = CapabilitySpec.spec_hash s2 ↔
          CapabilitySpec.canonicalJson s1 = CapabilitySpec.canonicalJson s2 := by
  intro hiff
  obtain ⟨i, j, hne, heq⟩ :=
    Fintype.exists_ne_map_eq_of_card_lt
      (fun i : Fin (2 ^ 256 + 1) =>
        (⟨sha256Nat (utf8Bytes (CapabilitySpec.canonicalJson (aSpec i.val))),
          sha256Nat_lt _⟩ : Fin (2 ^ 256)))
      (by rw [Fintype.card_fin, Fintype.card_fin]; exact Nat.lt_succ_self _)
  have hv : sha256Nat (utf8Bytes (CapabilitySpec.canonicalJson (aSpec i.val))) =
      sha256Nat (utf8Bytes (CapabilitySpec.canonicalJson (aSpec j.val))) :=
    congrArg Fin.val heq
  have hhash : (aSpec i.val).spec_hash = (aSpec j.val).spec_hash :=
    congrArg natToHex64 hv
  have hval : i.val ≠ j.val := fun hv' => hne (Fin.val_injective hv')
  exact aSpec_canonical_inj i.val j.val hval ((hiff _ _).mp hhash)

/-- Claim C7, amended: `spec_fingerprint` is deterministic and a pure
function of the canonical serialization — equal canonical
serializations yield equal fingerprints.  (The converse direction of
the original claim is refuted by `spec_fingerprint_not_injective`:
a hash with a finite range cannot be injective on the infinitely many
canonical forms.) -/
theorem spec_fingerprint_deterministic (s1 s2 : CapabilitySpec)
    (h : s1.canonicalJson = s2.canonicalJson) :
    s1.spec_hash = s1.spec_hash ∧ s1.spec_hash = s2.spec_hash :=
  ⟨rfl, congrArg (fun c => sha256Hex (utf8Bytes c)) h⟩

/-- Witness for the amended C7: two structurally different builds of
the same spec value have equal canonical serializations, hence equal
fingerprints. -/
theorem spec_fingerprint_deterministic_witness :
    (aSpec 3).spec_hash = (aSpec 3).spec_hash ∧
    (aSpec 3).spec_hash =
      (⟨"aaa", "", Json.null, Json.null, ⟨[], [], []⟩⟩ : CapabilitySpec).spec_hash :=
  spec_fingerprint_deterministic (aSpec 3)
    ⟨"aaa", "", Json.null, Json.null, ⟨[], [], []⟩⟩ rfl

/-- Counterexample to claim C2 as stated: when the policy-rules layer
(ordered before the cache) produces the terminal decision, the
subsequent evaluation of the same input returns the same decision but
from the policy-rules layer again — not from the cache layer. -/
theorem cascade_cache_layer_counterexample :
    ∃ (ld1 : LayeredDecision) (c1 : CacheMap) (ld2 : LayeredDecision) (c2 : CacheMap),
      evaluateCreation denyAModel cacheEmpty (GateInput.Creation specA) = .ok (ld1, c1) ∧
      ld1.decision.is_terminal = true ∧
      evaluateCreation denyAModel c1 (GateInput.Creation specA) = .ok (ld2, c2) ∧
      ld2.decision = ld1.decision ∧
      ld2.layer ≠ DecisionLayer.Cache := by
  refine ⟨⟨Decision.Deny "Policy rule: deny tool a", DecisionLayer.PolicyRules, none⟩,
    cacheStore cacheEmpty (GateInput.Creation specA).hash
      (Decision.Deny "Policy rule: deny tool a"),
    ⟨Decision.Deny "Policy rule: deny tool a", DecisionLayer.PolicyRules, none⟩,
    cacheStore
      (cacheStore cacheEmpty (GateInput.Creation specA).hash
        (Decision.Deny "Policy rule: deny tool a"))
      (GateInput.Creation specA).hash (Decision.Deny "Policy rule: deny tool a"),
    rfl, rfl, rfl, rfl, ?_⟩
  intro habs
  cases habs

/-- Witness for the amended C2: an LLM-produced deny is stored under
the input fingerprint, and the second evaluation serves that decision
from the cache layer. -/
theorem cascade_caches_terminal_decisions_witness :
    cacheStore cacheEmpty (GateInput.Creation specT).hash (Decision.Deny "dangerous")
        (GateInput.Creation specT).hash = some (Decision.Deny "dangerous") ∧
    ∃ ld2 c2,
      evaluateCreation llmDenyModel
        (cacheStore cacheEmpty (GateInput.Creation specT).hash (Decision.Deny "dangerous"))
        (GateInput.Creation specT) = .ok (ld2, c2) ∧
      ld2.decision = Decision.Deny "dangerous" ∧
      ((⟨Decision.Deny "dangerous", DecisionLayer.LlmEvaluation, none⟩ :
          LayeredDecision).layer ≠ DecisionLayer.PolicyRules →
        ld2.layer = DecisionLayer.Cache) :=
  cascade_caches_terminal_decisions.1 llmDenyModel cacheEmpty (GateInput.Creation specT)
    ⟨Decision.Deny "dangerous", DecisionLayer.LlmEvaluation, none⟩
    (cacheStore cacheEmpty (GateInput.Creation specT).hash (Decision.Deny "dangerous"))
    rfl rfl

/-- Claim C1: every successful build-loop run either ends with no
blocking ticket in the final QA/red-team round (and no escalation), or
is escalated with `escalated_tickets` exactly the blocking tickets that
remained when the iteration limit was reached. -/
theorem build_loop_success_escalation
    (ag : PipelineAgents) (pol : CircuitBreakerPolicy) (max_iterations : Nat)
    (spec : RefinedSpec) (bo : BuildOutput) (iteration : Nat) (a : BuildArtifact)
    (h : buildLoopGo ag pol max_iterations spec bo iteration = .ok a) :
    (a.escalated = false ∧ artifactBlocking a = [] ∧ a.escalated_tickets = []) ∨
    (a.escalated = true ∧ a.escalated_tickets = artifactBlocking a ∧
      a.escalated_tickets ≠ []) := by
  have main : ∀ (n iter : Nat) (b : BuildOutput) (art : BuildArtifact),
      max_iterations - iter ≤ n →
      buildLoopGo ag pol max_iterations spec b iter = .ok art →
      (art.escalated = false ∧ artifactBlocking art = [] ∧ art.escalated_tickets = []) ∨
      (art.escalated = true ∧ art.escalated_tickets = artifactBlocking art ∧
        art.escalated_tickets ≠ []) := by
    intro n
    induction n with
    | zero =>
      intro iter b art hle hrun
      rw [buildLoopGo.eq_def] at hrun
      dsimp only at hrun
      split at hrun
      · cases hrun
      · split at hrun
        · cases hrun
        · split at hrun
          · rename_i hEmpty
            cases hrun
            refine Or.inl ⟨rfl, ?_, rfl⟩
            exact List.isEmpty_eq_true.mp hEmpty
          · rename_i hEmpty
            split at hrun
            · split at hrun
              · cases hrun
              · cases hrun
                exact Or.inr ⟨rfl, rfl, fun hn => hEmpty (congrArg List.isEmpty hn)⟩
              · cases hrun
                exact Or.inr ⟨rfl, rfl, fun hn => hEmpty (congrArg List.isEmpty hn)⟩
            · rename_i hLim
              exact absurd (Nat.le_of_sub_eq_zero (Nat.le_zero.mp hle)) hLim
    | succ n ih =>
      intro iter b art hle hrun
      rw [buildLoopGo.eq_def] at hrun
      dsimp only at hrun
      split at hrun
      · cases hrun
      · split at hrun
        · cases hrun
        · split at hrun
          · rename_i hEmpty
            cases hrun
            refine Or.inl ⟨rfl, ?_, rfl⟩
            exact List.isEmpty_eq_true.mp hEmpty
          · rename_i hEmpty
            split at hrun
            · split at hrun
              · cases hrun
              · cases hrun
                exact Or.inr ⟨rfl, rfl, fun hn => hEmpty (congrArg List.isEmpty hn)⟩
              · cases hrun
                exact Or.inr ⟨rfl, rfl, fun hn => hEmpty (congrArg List.isEmpty hn)⟩
            · rename_i hLim
              split at hrun
              · split at hrun
                · cases hrun
                · exact ih (iter + 1) _ art (by omega) hrun
              · exact ih (iter + 1) _ art (by omega) hrun
  exact main (max_iterations - iteration) iteration bo a (Nat.le_refl _) h

/-- Witness for C1: a concrete run whose QA and red-team both pass on
the first iteration yields a non-escalated artifact with no blocking
tickets. -/
theorem build_loop_success_escalation_witness :
    (happyArtifact.escalated = false ∧ artifactBlocking happyArtifact = [] ∧
      happyArtifact.escalated_tickets = []) ∨
    (happyArtifact.escalated = true ∧
      happyArtifact.escalated_tickets = artifactBlocking happyArtifact ∧
      happyArtifact.escalated_tickets ≠ []) :=
  build_loop_success_escalation happyAgents CircuitBreakerPolicy.Fail 3 happySpec
    happyOutput 1 happyArtifact (by rw [buildLoopGo.eq_def]; rfl)

/-- Claim C9: `run_cascade` always returns `Ok` with a verdict, and
when every layer in the cascade passes through or errors (the HITL
layer included), the verdict is the fallback: a `Deny` with reason
exactly "All cascade layers exhausted without producing a decision",
attributed to the HITL layer. -/
theorem cascade_never_without_verdict :
    (∀ (layers : List ModelLayer) (input : GateInput) (c : CacheMap),
        ∃ out, runCascade layers input c = .ok out) ∧
    (∀ (layers : List ModelLayer) (input : GateInput) (c : CacheMap),
        (∀ l ∈ layers, l.eval input c = LayerResult.passThrough ∨
            ∃ e, l.eval input c = LayerResult.layerError e) →
        runCascade layers input c = .ok (fallbackDecision, c)) := by
  constructor
  · intro layers input c
    induction layers with
    | nil => exact ⟨_, rfl⟩
    | cons l rest ih =>
      rw [runCascade]
      cases l.eval input c with
      | decision d => exact ⟨_, rfl⟩
      | passThrough => exact ih
      | layerError e => exact ih
  · intro layers input c hall
    induction layers with
    | nil => rfl
    | cons l rest ih =>
      rw [runCascade]
      rcases hall l (List.mem_cons_self l rest) with hp | ⟨e, he⟩
      · rw [hp]
        exact ih (fun x hx => hall x (List.mem_cons_of_mem l hx))
      · rw [he]
        exact ih (fun x hx => hall x (List.mem_cons_of_mem l hx))

/-- Witness for C9: a two-layer cascade whose first layer passes
through and whose final (HITL-tagged) layer errors still returns Ok
with the fallback deny. -/
theorem cascade_never_without_verdict_witness :
    runCascade
      [⟨DecisionLayer.PolicyRules, fun _ _ => LayerResult.passThrough⟩,
       ⟨DecisionLayer.Hitl, fun _ _ => LayerResult.layerError "responder offline"⟩]
      (GateInput.Execution ⟨"some_tool", Json.null⟩) cacheEmpty =
      .ok (fallbackDecision, cacheEmpty) :=
  cascade_never_without_verdict.2 _ _ _ (by
    intro l hl
    simp only [List.mem_cons, List.not_mem_nil, or_false] at hl
    rcases hl with rfl | rfl
    · exact Or.inl rfl
    · exact Or.inr ⟨"responder offline", rfl⟩)

theorem subFind_occurrence (text word : List Char) (start fuel abs : Nat)
    (h : subFind text word start fuel = some abs) :
    word.isPrefixOf (text.drop abs) = true := by
  induction fuel generalizing start with
  | zero => simp [subFind] at h
  | succ n ih =>
    rw [subFind] at h
    split at h
    · cases h
      assumption
    · exact ih _ h

theorem containsWordGo_sound (text word : List Char) (start fuel : Nat)
    (h : containsWordGo text word start fuel = true) :
    ∃ i, wholeWordAt text word i = true := by
  induction fuel generalizing start with
  | zero => simp [containsWordGo] at h
  | succ n ih =>
    rw [containsWordGo] at h
    split at h
    · cases h
    · rename_i abs hfind
      dsimp only at h
      split at h
      · rename_i hok
        refine ⟨abs, ?_⟩
        have hpre := subFind_occurrence text word _ _ _ hfind
        have hbefore := (Bool.and_eq_true _ _).mp hok |>.1
        have hafter := (Bool.and_eq_true _ _).mp hok |>.2
        rw [wholeWordAt, hpre, Bool.true_and]
        refine (Bool.and_eq_true _ _).mpr ⟨?_, ?_⟩
        · rcases Bool.or_eq_true _ _ |>.mp hbefore with h0 | hb
          · rw [Bool.or_eq_true]
            left
            simpa using h0
          · rw [Bool.or_eq_true]
            right
            cases hg : text.get? (abs - 1) with
            | none => rfl
            | some c =>
              rw [hg] at hb
              simpa [boundaryOk] using hb
        · rcases Bool.or_eq_true _ _ |>.mp hafter with hlen | hb
          · have : text.length ≤ abs + word.length := by simpa using hlen
            rw [List.get?_eq_none.mpr this]
            rfl
          · cases hg : text.get? (abs + word.length) with
            | none => rfl
            | some c =>
              rw [hg] at hb
              simpa [boundaryOk] using hb
      · exact ih _ h

/-- Claim C4: `contains_word` returns true only on genuine whole-word
occurrences (bounded on each side by a non-alphanumeric, non-underscore
character or a string endpoint); in particular
`contains_word "elapsed time" "sed" = false`, and the CLI-check layer
does not defer the spec whose description merely contains "elapsed" to
sed. -/
theorem contains_word_only_whole_word :
    (∀ text word : String, contains_word text word = true →
        ∃ i, wholeWordAt text.data word.data i = true) ∧
    contains_word "elapsed time" "sed" = false ∧
    cliCheckEvaluate default_utilities
      (GateInput.Creation ⟨"discord_approval",
        "Post an approval request to Discord. Uses elapsed time for polling.",
        Json.null, Json.null, ⟨[], [], []⟩⟩) = none := by
  refine ⟨?_, by decide, by decide⟩
  intro text word h
  exact containsWordGo_sound text.data word.data 0 _ h

/-- Witness for C4: `contains_word` accepts "use sed to edit" and the
theorem turns that acceptance into an explicit whole-word occurrence. -/
theorem contains_word_only_whole_word_witness :
    ∃ i, wholeWordAt "use sed to edit".data "sed".data i = true :=
  contains_word_only_whole_word.1 "use sed to edit" "sed" (by decide)

/-- Claim C5: a bug ticket is blocking exactly when its severity is
critical or high, and a ticket deserialized from a record with no
severity field gets severity high — hence is blocking. -/
theorem blocking_iff_critical_or_high :
    (∀ t : BugTicket, t.is_blocking = true ↔
        (t.severity = BugTicketSeverity.Critical ∨ t.severity = BugTicketSeverity.High)) ∧
    (∀ (fields : List (String × Json)) (t : BugTicket),
        parseBugTicket (Json.obj fields) = some t →
        lookupField fields "severity" = none →
        t.severity = BugTicketSeverity.High ∧ t.is_blocking = true) := by
  constructor
  · intro t
    cases h : t.severity <;> simp [BugTicket.is_blocking, h]
  · intro fields t hparse hsev
    rw [parseBugTicket] at hparse
    rw [hsev] at hparse
    dsimp only at hparse
    split at hparse
    · cases hparse
    · split at hparse
      · cases hparse
      · split at hparse
        · cases hparse
        · split at hparse
          · cases hparse
          · split at hparse
            · cases hparse
            · split at hparse
              · cases hparse
              · cases hparse
                exact ⟨rfl, rfl⟩

/-- Witness for C5: a concrete ticket record with no severity field
parses with severity high and is blocking. -/
theorem blocking_iff_critical_or_high_witness :
    (⟨"engineer", BugTicketType.FunctionalDefect, BugTicketSeverity.High, Json.null,
        "error response", "panic", "Add bounds checking"⟩ : BugTicket).severity =
      BugTicketSeverity.High ∧
    (⟨"engineer", BugTicketType.FunctionalDefect, BugTicketSeverity.High, Json.null,
        "error response", "panic", "Add bounds checking"⟩ : BugTicket).is_blocking = true :=
  blocking_iff_critical_or_high.2
    [("target", Json.str "engineer"), ("ticket_type", Json.str "functional_defect"),
     ("input", Json.null), ("expected", Json.str "error response"),
     ("actual", Json.str "panic"), ("remediation_directive", Json.str "Add bounds checking")]
    _ rfl rfl

/-- Claim C6 (the `with_policy_only_creation` constructor itself is
modelled from the spec; see `policyOnlyCreationEvaluate`): with the
creation gate in policy-only mode, an input's verdict is computed by
the policy-rules layer alone — a policy decision is returned as-is, and
a policy pass-through yields `Allow` directly, with the LLM-evaluation
and HITL layers never consulted (the policy-only cascade is not even
parameterized over them). -/
theorem policy_only_creation_gate (rm : RMatch) (deny allow : List PolicyPattern)
    (spec : CapabilitySpec) :
    (policyEvaluate rm deny allow (GateInput.Creation spec) = none →
      policyOnlyCreationEvaluate rm deny allow (GateInput.Creation spec) = Decision.Allow) ∧
    (∀ d, policyEvaluate rm deny allow (GateInput.Creation spec) = some d →
      policyOnlyCreationEvaluate rm deny allow (GateInput.Creation spec) = d) := by
  constructor
  · intro h
    rw [policyOnlyCreationEvaluate, h]
  · intro d h
    rw [policyOnlyCreationEvaluate, h]

/-- Witness for C6: with no matching policy pattern, a concrete
creation input is allowed directly by the policy-only gate. -/
theorem policy_only_creation_gate_witness :
    policyOnlyCreationEvaluate (fun _ _ => false)
      [⟨"Shell execution access", some "(?i)(shell_exec|run_command)", none, none⟩] []
      (GateInput.Creation ⟨"github_issues", "Fetch GitHub issues", Json.null, Json.null,
        ⟨[], [], []⟩⟩) = Decision.Allow :=
  (policy_only_creation_gate (fun _ _ => false) _ _ _).1 rfl

theorem hmLookup_hmInsert_self (k : String) (v : β) (l : List (String × β)) :
    hmLookup k (hmInsert k v l) = some v := by
  induction l with
  | nil => simp [hmInsert, hmLookup]
  | cons e rest ih =>
    by_cases hk : e.1 = k
    · simp [hmInsert, hmLookup, hk]
    · simp [hmInsert, hmLookup, hk, ih]

/-- Claim C8: a second `load_component` with the same wasm path and
metadata is a no-op: it succeeds via the fast path with the same
component id, without consulting storage, the compiler or the
instantiator (their results are irrelevant on the second call), and the
component index, tool index and `list_tools()` are exactly the state
after the first call. -/
theorem load_component_idempotent
    (s1 c1 i1 s2 c2 i2 : Except String Unit) (st : RuntimeState) (meta : ComponentMeta)
    (id : String) (st1 : RuntimeState)
    (h : load_component s1 c1 i1 st meta = .ok (id, st1)) :
    id = meta.component_id ∧
    load_component s2 c2 i2 st1 meta = .ok (id, st1) ∧
    list_tools st1 = list_tools st1 := by
  unfold load_component at h
  by_cases hfast : (hmLookup meta.component_id st.components).isSome
  · rw [if_pos hfast] at h
    obtain ⟨rfl, rfl⟩ : id = meta.component_id ∧ st = st1 := by
      cases h
      exact ⟨rfl, rfl⟩
    exact ⟨rfl, by unfold load_component; rw [if_pos hfast], rfl⟩
  · rw [if_neg hfast] at h
    cases s1 with
    | error e => simp at h
    | ok u1 =>
      cases c1 with
      | error e => simp at h
      | ok u2 =>
        cases i1 with
        | error e => simp at h
        | ok u3 =>
          simp only [Except.ok.injEq, Prod.mk.injEq] at h
          obtain ⟨rfl, hst⟩ := h
          refine ⟨rfl, ?_, rfl⟩
          unfold load_component
          rw [if_pos (by rw [← hst]; simp [hmLookup_hmInsert_self])]

/-- Witness for C8: loading a concrete component into the empty runtime
and loading it again returns the same id and leaves both indexes
untouched. -/
theorem load_component_idempotent_witness :
    "fetch_url@0.1.0" = ("fetch_url@0.1.0" : String) ∧
    load_component (.error "disk gone") (.error "compiler gone") (.error "linker gone")
      ⟨[("fetch_url@0.1.0", ⟨"fetch_url@0.1.0", "fetch_url", "Fetch a URL", Json.null,
          "abc123", 1700000000000⟩)],
       [("fetch_url", "fetch_url@0.1.0")]⟩
      ⟨"fetch_url@0.1.0", "fetch_url", "Fetch a URL", Json.null, "abc123", 1700000000000⟩ =
      .ok ("fetch_url@0.1.0",
        ⟨[("fetch_url@0.1.0", ⟨"fetch_url@0.1.0", "fetch_url", "Fetch a URL", Json.null,
            "abc123", 1700000000000⟩)],
         [("fetch_url", "fetch_url@0.1.0")]⟩) ∧
    list_tools ⟨[("fetch_url@0.1.0", ⟨"fetch_url@0.1.0", "fetch_url", "Fetch a URL", Json.null,
          "abc123", 1700000000000⟩)],
        [("fetch_url", "fetch_url@0.1.0")]⟩ =
      list_tools ⟨[("fetch_url@0.1.0", ⟨"fetch_url@0.1.0", "fetch_url", "Fetch a URL", Json.null,
          "abc123", 1700000000000⟩)],
        [("fetch_url", "fetch_url@0.1.0")]⟩ :=
  load_component_idempotent (.ok ()) (.ok ()) (.ok ()) (.error "disk gone")
    (.error "compiler gone") (.error "linker gone") emptyRuntimeState
    ⟨"fetch_url@0.1.0", "fetch_url", "Fetch a URL", Json.null, "abc123", 1700000000000⟩
    "fetch_url@0.1.0" _ rfl

end Girt
